import Mathlib

/-!
Shallow embedding of the dependency-resolution, deduplication and
configuration-propagation core of `sconsProject` (file `project/__init__.py`),
together with the target-declaration guards and the script-test dependency
resolution built on it.

A library checker object is modelled by the inductive type `Lib`.  Its
scalar attributes (`name`, `id`, `dependencies`, `sconsNode`) come straight
from the source (`autoconf/_internal.py` and the uses inside
`project/__init__.py`); the results of the per-library callbacks `enabled`,
`initOptions`, `configure` and `check` — whose bodies live in the
library-checker base class that is not among the sources — are modelled as
per-library booleans (`enabledB`, `initOptionsB`, `configureB`, `checkB`),
following the spec's LibraryDescriptor contract ("the three operations it
supports").  Modelled from the spec: the per-object attribute `checkDone`
starts unset on every fresh library object (spec: `verified` tri-state,
initially not-yet-checked); it is represented by the state's `checkDone`
set of library values.

SCons environments are mutable key/value bags; the embedding keeps the keys
the core reads and writes (`SconsProjectLibraries`,
`SconsProject_missingDependencies`, with `Option` marking key presence) and
records the opaque per-library environment mutations (`initEnv`,
`configure`, `check`, `postconfigure`) as append-only lists of the
libraries they were invoked for.
-/

inductive Lib where
  | mk (name : String) (id : Nat) (dependencies : List Lib)
       (sconsNode : Bool) (enabledB : Bool) (initOptionsB : Bool)
       (configureB : Bool) (checkB : Bool)

def Lib.name : Lib → String
  | .mk n _ _ _ _ _ _ _ => n

def Lib.id : Lib → Nat
  | .mk _ i _ _ _ _ _ _ => i

def Lib.dependencies : Lib → List Lib
  | .mk _ _ d _ _ _ _ _ => d

def Lib.sconsNode : Lib → Bool
  | .mk _ _ _ s _ _ _ _ => s

def Lib.enabledB : Lib → Bool
  | .mk _ _ _ _ e _ _ _ => e

def Lib.initOptionsB : Lib → Bool
  | .mk _ _ _ _ _ o _ _ => o

def Lib.configureB : Lib → Bool
  | .mk _ _ _ _ _ _ c _ => c

def Lib.checkB : Lib → Bool
  | .mk _ _ _ _ _ _ _ k => k

mutual
def decEqLib : (a b : Lib) → Decidable (a = b)
  | .mk n1 i1 d1 s1 e1 o1 c1 k1, .mk n2 i2 d2 s2 e2 o2 c2 k2 =>
    haveI : Decidable (d1 = d2) := decEqLibList d1 d2
    decidable_of_iff
      (n1 = n2 ∧ i1 = i2 ∧ d1 = d2 ∧ s1 = s2 ∧ e1 = e2 ∧ o1 = o2 ∧ c1 = c2 ∧ k1 = k2)
      (by constructor
          · rintro ⟨h1, h2, h3, h4, h5, h6, h7, h8⟩
            subst h1 h2 h3 h4 h5 h6 h7 h8; rfl
          · intro h; cases h; exact ⟨rfl, rfl, rfl, rfl, rfl, rfl, rfl, rfl⟩)
def decEqLibList : (a b : List Lib) → Decidable (a = b)
  | [], [] => isTrue rfl
  | [], _ :: _ => isFalse (by intro h; cases h)
  | _ :: _, [] => isFalse (by intro h; cases h)
  | x :: xs, y :: ys =>
    haveI : Decidable (x = y) := decEqLib x y
    haveI : Decidable (xs = ys) := decEqLibList xs ys
    decidable_of_iff (x = y ∧ xs = ys)
      (by constructor
          · rintro ⟨h1, h2⟩; subst h1 h2; rfl
          · intro h; cases h; exact ⟨rfl, rfl⟩)
end

instance : DecidableEq Lib := decEqLib

/-- The identity key used by `uniqLibs`: the `(s.name, s.id)` pair. -/
def libKey (l : Lib) : String × Nat := (l.name, l.id)

/-- Key of a `(library, depth)` pair. -/
def pairKey (p : Lib × Nat) : String × Nat := libKey p.1

mutual
/-- `internFindLibDependencies` inside `findLibsDependencies`
(`project/__init__.py`, lines 957–964): post-order expansion of one
library — the dependencies of `lib` are expanded (each at `level + 1`)
before `(lib, level)` itself is appended. -/
def internFindLibDependencies : Lib → Nat → List (Lib × Nat)
  | .mk n i d s e o c k, level =>
    internFindLibDependenciesList d (level + 1) ++ [(.mk n i d s e o c k, level)]
/-- The `for l in lib.dependencies: ll.extend(...)` loop of
`internFindLibDependencies`. -/
def internFindLibDependenciesList : List Lib → Nat → List (Lib × Nat)
  | [], _ => []
  | l :: rest, level =>
    internFindLibDependencies l level ++ internFindLibDependenciesList rest level
end

/-- `findLibsDependencies` (`project/__init__.py`, lines 953–972) for a
single library argument (both call sites pass a single library): every
dependency of `lib` expanded post-order starting at level 0, without `lib`
itself. -/
def findLibsDependencies (lib : Lib) : List (Lib × Nat) :=
  internFindLibDependenciesList lib.dependencies 0

/-- The loop of `uniqLibs`: `names` accumulates the `(name, id)` keys
already kept. -/
def uniqLibsAux (names : List (String × Nat)) : List (Lib × Nat) → List (Lib × Nat)
  | [] => []
  | (s, level) :: rest =>
    if (s.name, s.id) ∈ names then uniqLibsAux names rest
    else (s, level) :: uniqLibsAux (names ++ [(s.name, s.id)]) rest

/-- `uniqLibs` (`project/__init__.py`, lines 941–951): keep the first
occurrence of each distinct `(name, id)` pair, drop later duplicates. -/
def uniqLibs (allLibs : List (Lib × Nat)) : List (Lib × Nat) :=
  uniqLibsAux [] allLibs

/-- The resolved dependency list built by `appendLibsToEnv`
(lines 819–824): for each requested library in order, its transitive
dependencies followed by the library itself at level 0, then the whole
list deduplicated by `uniqLibs`. -/
def resolveAllLibs (libs : List Lib) : List (Lib × Nat) :=
  uniqLibs (libs.foldl (fun acc l => acc ++ findLibsDependencies l ++ [(l, 0)]) [])

/-- The SCons environment keys and per-library mutations the core touches.
`none` means the key is absent from the environment. -/
structure Env where
  sconsProjectLibraries : Option (List Lib)
  missingDependencies : Option (List String)
  initEnvLibs : List Lib
  configuredLibs : List Lib
  checkedLibs : List Lib
  postconfiguredLibs : List Lib
deriving DecidableEq

def emptyEnv : Env := ⟨none, none, [], [], [], []⟩

/-- The global run options the core consults: `env['check_libs']`,
SCons's `clean`/`help` options, `env['ignore_configure_errors']` and
`env['mode']`. -/
structure Config where
  checkLibs : Bool
  cleanOrHelp : Bool
  ignoreConfigureErrors : Bool
  mode : String
deriving DecidableEq

/-- `needConfigure` (`project/__init__.py`, lines 437–439). -/
def needConfigure (cfg : Config) : Bool := !cfg.cleanOrHelp

/-- `needCheck` (`project/__init__.py`, lines 441–443). -/
def needCheck (cfg : Config) : Bool := cfg.checkLibs

/-- The process-wide mutable state of a `SConsProject` instance that the
claims touch: the shared base environment `self.env`, `self.commonLibs`,
the failure aggregator `self.libs_error`, the verification cache
`self.allLibsChecked` (a list of names) together with the per-object
`checkDone` marks, the count of probe executions (instrumentation: one
per execution of `checkLibrary`'s probing section), the registry
`self.allTargets` (name to (artifact handle, exposed checker)), the
degraded-target map `self.removedFromDefaultTargets` and the list of
targets aliased to `'all'`. -/
structure ProjectState where
  baseEnv : Env
  commonLibs : List Lib
  libs_error : List Lib
  allLibsChecked : List String
  checkDone : List Lib
  probeCount : Nat
  removedFromDefaultTargets : List (String × List String)
  allAlias : List String
  allTargets : List (String × (Option String × Option Lib))
deriving DecidableEq

def emptyProjectState : ProjectState := ⟨emptyEnv, [], [], [], [], 0, [], [], []⟩

/-- `if lib not in self.libs_error: self.libs_error.append(lib)`. -/
def addLibError (st : ProjectState) (lib : Lib) : ProjectState :=
  if lib ∈ st.libs_error then st
  else {st with libs_error := st.libs_error ++ [lib]}

/-- `checkLibrary` (`project/__init__.py`, lines 879–939).  The scratch
environment `check_env = self.env.Clone()` and the pre-configuration of
the library's dependencies inside it mutate only that discarded clone, so
they leave no trace in the state; the probing section (everything from
the `uniqLibs(findLibsDependencies(lib))` computation to
`check_conf.Finish()`) is counted by `probeCount`, and its outcome is
`lib.configure(...) && lib.check(...)`. -/
def checkLibrary (cfg : Config) (st : ProjectState) (lib : Lib) :
    Bool × ProjectState :=
  if lib ∈ st.checkDone then (true, st)
  else if lib.sconsNode then (true, st)
  else if lib.name ∈ st.allLibsChecked then
    (true, {st with checkDone := st.checkDone ++ [lib]})
  else if !needCheck cfg then
    (true, {st with checkDone := st.checkDone ++ [lib],
                    allLibsChecked := st.allLibsChecked ++ [lib.name]})
  else
    let _dependencies := uniqLibs (findLibsDependencies lib)
    let st1 := if lib.initOptionsB then st else addLibError st lib
    let checkStatus := lib.configureB && lib.checkB
    (checkStatus, {st1 with checkDone := st1.checkDone ++ [lib],
                            allLibsChecked := st1.allLibsChecked ++ [lib.name],
                            probeCount := st1.probeCount + 1})

/-- A run's sequence of `checkLibrary` requests, in order. -/
def runChecks (cfg : Config) (st : ProjectState) : List Lib → ProjectState
  | [] => st
  | l :: ls => runChecks cfg (checkLibrary cfg st l).2 ls

/-- The verification loop of `appendLibsToEnv` (lines 842–858): for each
resolved `(lib, level)` in order, skip it when `lib.enabled(env)` is
false, otherwise run `checkLibrary`, always invoke `lib.configure(env)`,
and when `configure` passed open a configure context and run
`lib.check`; a library whose combined status failed is appended to the
local `libs_error` accumulator, and the loop continues regardless. -/
def configureLoop (cfg : Config) :
    ProjectState → Env → List (Lib × Nat) → List Lib →
    ProjectState × Env × List Lib
  | st, env, [], errs => (st, env, errs)
  | st, env, (lib, _level) :: rest, errs =>
    if !lib.enabledB then configureLoop cfg st env rest errs
    else
      let r := checkLibrary cfg st lib
      let env1 := {env with configuredLibs := env.configuredLibs ++ [lib]}
      if lib.configureB then
        let env2 := {env1 with checkedLibs := env1.checkedLibs ++ [lib]}
        if r.1 && lib.checkB then configureLoop cfg r.2 env2 rest errs
        else configureLoop cfg r.2 env2 rest (errs ++ [lib])
      else configureLoop cfg r.2 env1 rest (errs ++ [lib])

/-- `appendLibsToEnv` (`project/__init__.py`, lines 803–877). -/
def appendLibsToEnv (cfg : Config) (st : ProjectState) (env : Env)
    (libs : List Lib) : ProjectState × Env :=
  if libs = [] then (st, env)
  else
    let env1 :=
      {env with sconsProjectLibraries := some (env.sconsProjectLibraries.getD [] ++ libs)}
    let allLibs := resolveAllLibs libs
    let st1 := allLibs.foldl
      (fun s p => if p.1.initOptionsB then s else addLibError s p.1) st
    let env2 := {env1 with initEnvLibs := env1.initEnvLibs ++ allLibs.map Prod.fst}
    let stEnv :=
      if needConfigure cfg then
        let r := configureLoop cfg st1 env2 allLibs []
        let env3 :=
          {r.2.1 with
            missingDependencies := some (r.2.1.missingDependencies.getD [] ++ r.2.2.map Lib.name)}
        let st2 := r.2.2.foldl addLibError r.1
        (st2, env3)
      else (st1, env2)
    let env4 :=
      {stEnv.2 with postconfiguredLibs := stEnv.2.postconfiguredLibs ++ allLibs.map Prod.fst}
    (stEnv.1, env4)

/-- `createEnv` (`project/__init__.py`, lines 791–801): clone the shared
base environment, prepend each common library at position 0 (which
reverses `commonLibs`), and apply `appendLibsToEnv` to the clone. -/
def createEnv (cfg : Config) (st : ProjectState) (libs : List Lib) :
    ProjectState × Env :=
  let newEnv := st.baseEnv
  let newLibs := st.commonLibs.foldl (fun acc l => l :: acc) libs
  appendLibsToEnv cfg st newEnv newLibs

/-- `declareTarget` (`project/__init__.py`, lines 1073–1080): a target
whose local environment carries a non-empty
`SconsProject_missingDependencies` list is recorded in
`removedFromDefaultTargets` and not aliased to `'all'`; otherwise it is
aliased to `'all'`.  The dictionary entry is modelled as an
association-list append. -/
def declareTarget (st : ProjectState) (localEnv : Env) (targetName : String) :
    ProjectState :=
  let missingDeps := localEnv.missingDependencies.getD []
  if missingDeps = [] then {st with allAlias := st.allAlias ++ [targetName]}
  else
    {st with removedFromDefaultTargets := st.removedFromDefaultTargets ++ [(targetName, missingDeps)]}

/-- The end-of-run decision of `end` (`project/__init__.py`,
lines 752–771): when the failure aggregator `libs_error` is non-empty and
`ignore_configure_errors` is unset, the run aborts with
`SCons.Script.Exit(1)` (result `true`); otherwise it proceeds to build
the default targets (result `false`). -/
def endAborts (cfg : Config) (st : ProjectState) : Bool :=
  !(st.libs_error = []) && !cfg.ignoreConfigureErrors

/-- Outcome of the `'# scons:'` dependency resolution for one script test. -/
inductive ScriptDepsResult where
  | resolved (targets : List (Option String × Option Lib))
  | skipped
  | failed (missing : List String) (known : List String)
deriving DecidableEq

/-- The `'# scons:'` header resolution of `ScriptTests`
(`project/__init__.py`, lines 1699–1715): `'all'` resolves to every
registered target; otherwise names absent from `allTargets` are
collected, and when some are missing the script is silently skipped in
`'production'` mode and otherwise the run fails with an error carrying
the missing names and the sorted list of all known target names. -/
def processScriptDeps (mode : String)
    (allTargets : List (String × (Option String × Option Lib)))
    (dependenciesStr : List String) : ScriptDepsResult :=
  if dependenciesStr = ["all"] then .resolved (allTargets.map Prod.snd)
  else
    let err := dependenciesStr.filter (fun d => d ∉ allTargets.map Prod.fst)
    if err = [] then
      .resolved (dependenciesStr.filterMap (fun d => allTargets.lookup d))
    else if mode = "production" then .skipped
    else .failed err ((allTargets.map Prod.fst).insertionSort (· ≤ ·))

/-- The exposed `InternalLibChecker` a library-producing target registers
(`project/__init__.py`, line 1196): an internal library (non-nil
`sconsNode`) named after the target, depending on the target's
libraries. -/
def exposedChecker (target : String) (libraries : List Lib) : Lib :=
  .mk target 0 libraries true true true true true

/-- `StaticLibrary` (`project/__init__.py`, lines 1083–1206), reduced to
the state-visible skeleton: resolve the source list (explicit sources
plus the files scanned from `dirs` when `dirs` is non-empty — scanning is
I/O, so the scan result is a parameter), fail with `RuntimeError` when it
is empty, otherwise build the local environment with `createEnv`, declare
the target and register it (artifact handle plus exposed internal
checker) in `allTargets`. -/
def StaticLibraryOp (cfg : Config) (st : ProjectState) (target : String)
    (sources dirs scanned : List String) (libraries : List Lib) :
    Except String (ProjectState × String) :=
  let sourcesFiles := sources ++ (if dirs = [] then [] else scanned)
  if sourcesFiles = [] then
    .error ("No source files for the target: " ++ target)
  else
    let r := createEnv cfg st libraries
    let st1 := declareTarget r.1 r.2 target
    let st2 :=
      {st1 with
        allTargets := st1.allTargets ++ [(target, (some target, some (exposedChecker target libraries)))]}
    .ok (st2, target)

/-- `SharedLibrary` (`project/__init__.py`, lines 1209–1337), reduced to
the same state-visible skeleton as `StaticLibraryOp`. -/
def SharedLibraryOp (cfg : Config) (st : ProjectState) (target : String)
    (sources dirs scanned : List String) (libraries : List Lib) :
    Except String (ProjectState × String) :=
  let sourcesFiles := sources ++ (if dirs = [] then [] else scanned)
  if sourcesFiles = [] then
    .error ("No source files for the target: " ++ target)
  else
    let r := createEnv cfg st libraries
    let st1 := declareTarget r.1 r.2 target
    let st2 :=
      {st1 with
        allTargets := st1.allTargets ++ [(target, (some target, some (exposedChecker target libraries)))]}
    .ok (st2, target)

/-- `Program` (`project/__init__.py`, lines 1339–1425), reduced to the
state-visible skeleton; a program registers no exposed checker. -/
def ProgramOp (cfg : Config) (st : ProjectState) (target : String)
    (sources dirs scanned : List String) (libraries : List Lib) :
    Except String (ProjectState × String) :=
  let sourcesFiles := sources ++ (if dirs = [] then [] else scanned)
  if sourcesFiles = [] then
    .error ("No source files for the target: " ++ target)
  else
    let r := createEnv cfg st libraries
    let st1 := declareTarget r.1 r.2 target
    let st2 :=
      {st1 with allTargets := st1.allTargets ++ [(target, (some target, none))]}
    .ok (st2, target)

/-- `UnitTest` (`project/__init__.py`, lines 1604–1659), reduced to the
state-visible skeleton: a unit test builds its environment but is neither
declared as a default target nor registered in `allTargets`. -/
def UnitTestOp (cfg : Config) (st : ProjectState) (target : String)
    (sources dirs scanned : List String) (libraries : List Lib) :
    Except String (ProjectState × String) :=
  let l_sources := sources ++ (if dirs = [] then [] else scanned)
  if l_sources = [] then
    .error ("No source files for the target: " ++ target)
  else
    let r := createEnv cfg st libraries
    .ok (r.1, target)

/-- The per-script body of `ScriptTests` (lines 1691–1743): resolve the
`'# scons:'` header of each script (`headerDeps` stands for reading the
script's first line), skip the script when resolution says so, abort the
run when it fails, and otherwise build the script's environment from the
requested libraries plus the checkers exposed by the referenced
targets. -/
def scriptTestsLoop (cfg : Config) (st : ProjectState)
    (headerDeps : String → Option (List String)) (libraries : List Lib) :
    List String → Except String (ProjectState × List String)
  | [] => .ok (st, [])
  | s :: rest =>
    let resolution := match headerDeps s with
      | none => ScriptDepsResult.resolved []
      | some deps => processScriptDeps cfg.mode st.allTargets deps
    match resolution with
    | .skipped => scriptTestsLoop cfg st headerDeps libraries rest
    | .failed missing known =>
      .error ("Some dependencies of the scripttest " ++ s ++
        " do not exist. Missing deps: " ++ String.intercalate " " missing ++
        " Existing dependencies are: " ++ String.intercalate " " known)
    | .resolved targets =>
      let libsFromFile := targets.filterMap Prod.snd
      let r := createEnv cfg st (libraries ++ libsFromFile)
      match scriptTestsLoop cfg r.1 headerDeps libraries rest with
      | .error e => .error e
      | .ok (stFin, built) => .ok (stFin, s :: built)

/-- `ScriptTests` (`project/__init__.py`, lines 1661–1743), reduced to
the state-visible skeleton: resolve the source list, fail with
`RuntimeError` when it is empty, then process each script. -/
def ScriptTestsOp (cfg : Config) (st : ProjectState) (target : String)
    (sources dirs scanned : List String)
    (headerDeps : String → Option (List String)) (libraries : List Lib) :
    Except String (ProjectState × List String) :=
  let l_sources := sources ++ (if dirs = [] then [] else scanned)
  if l_sources = [] then
    .error ("No source files for the target: " ++ target)
  else
    scriptTestsLoop cfg st headerDeps libraries l_sources

/-! ### Frame lemmas: the shared base environment is never written -/

theorem addLibError_baseEnv (st : ProjectState) (lib : Lib) :
    (addLibError st lib).baseEnv = st.baseEnv := by
  unfold addLibError; split <;> rfl

theorem checkLibrary_baseEnv (cfg : Config) (st : ProjectState) (lib : Lib) :
    ((checkLibrary cfg st lib).2).baseEnv = st.baseEnv := by
  unfold checkLibrary
  repeat' split
  all_goals simp_all [addLibError_baseEnv]

theorem configureLoop_baseEnv (cfg : Config) :
    ∀ (l : List (Lib × Nat)) (st : ProjectState) (env : Env) (errs : List Lib),
    ((configureLoop cfg st env l errs).1).baseEnv = st.baseEnv := by
  intro l
  induction l with
  | nil => intro st env errs; rfl
  | cons hd tl ih =>
    intro st env errs
    obtain ⟨lib, level⟩ := hd
    unfold configureLoop
    repeat' split
    all_goals try simp_all [ih, checkLibrary_baseEnv]
    all_goals split
    all_goals simp_all [ih, checkLibrary_baseEnv]

theorem foldl_initOptions_baseEnv (l : List (Lib × Nat)) :
    ∀ (st : ProjectState),
    ((l.foldl (fun s p => if p.1.initOptionsB then s else addLibError s p.1) st)).baseEnv
      = st.baseEnv := by
  induction l with
  | nil => intro st; rfl
  | cons hd tl ih =>
    intro st
    simp only [List.foldl_cons]
    rw [ih]
    split <;> simp [addLibError_baseEnv]

theorem foldl_addLibError_baseEnv (l : List Lib) :
    ∀ (st : ProjectState), ((l.foldl addLibError st)).baseEnv = st.baseEnv := by
  induction l with
  | nil => intro st; rfl
  | cons hd tl ih =>
    intro st
    simp only [List.foldl_cons]
    rw [ih, addLibError_baseEnv]

theorem appendLibsToEnv_baseEnv (cfg : Config) (st : ProjectState) (env : Env)
    (libs : List Lib) : ((appendLibsToEnv cfg st env libs).1).baseEnv = st.baseEnv := by
  unfold appendLibsToEnv
  split
  · rfl
  · split
    · simp [foldl_addLibError_baseEnv, configureLoop_baseEnv, foldl_initOptions_baseEnv]
    · simp [foldl_initOptions_baseEnv]

/-- C9: `createEnv` derives each target's environment by cloning the shared
base environment: the shared base environment `self.env` is left unchanged
by every call — every key it held before the call has the same value after
— and the returned environment is a separate value derived from the clone,
so mutating it cannot affect the base. -/
theorem createEnv_preserves_base (cfg : Config) (st : ProjectState) (libs : List Lib) :
    ((createEnv cfg st libs).1).baseEnv = st.baseEnv := by
  unfold createEnv
  exact appendLibsToEnv_baseEnv ..

/-- C10: `appendLibsToEnv` called with an empty library list returns the
given environment itself and the project state unchanged: no environment
key is added or modified, no library is checked, and nothing is appended
to `libs_error`. -/
theorem appendLibsToEnv_nil (cfg : Config) (st : ProjectState) (env : Env) :
    appendLibsToEnv cfg st env [] = (st, env) := rfl

/-- C6: a library whose internal-artifact handle `sconsNode` is set makes
`checkLibrary` return `True` with the whole project state untouched: no
probe is counted, no configure context is opened, and no cache entry is
written. -/
theorem checkLibrary_internal_trusted (cfg : Config) (st : ProjectState) (lib : Lib)
    (h : lib.sconsNode = true) : checkLibrary cfg st lib = (true, st) := by
  unfold checkLibrary
  split
  · rfl
  · simp [h]

theorem checkLibrary_internal_trusted_witness :
    (Lib.mk "intern" 7 [] true true true true true).sconsNode = true ∧
    checkLibrary ⟨true, false, false, "release"⟩ emptyProjectState
      (Lib.mk "intern" 7 [] true true true true true) = (true, emptyProjectState) :=
  ⟨rfl, checkLibrary_internal_trusted ⟨true, false, false, "release"⟩ emptyProjectState
    (Lib.mk "intern" 7 [] true true true true true) rfl⟩

/-- C4 (amended): a target whose environment carries a non-empty
missing-dependency list is always recorded in `removedFromDefaultTargets`
and excluded from the default `'all'` alias, regardless of the global
ignore-configure-errors flag; the flag instead controls the end of the
run: when it is set, `end` does not abort, so the run proceeds to build
the remaining (non-degraded) default targets. -/
theorem declareTarget_always_excludes_degraded (st : ProjectState) (env : Env)
    (name : String) (cfg : Config) (st2 : ProjectState)
    (h : env.missingDependencies.getD [] ≠ []) (hflag : cfg.ignoreConfigureErrors = true) :
    (declareTarget st env name).allAlias = st.allAlias ∧
    (declareTarget st env name).removedFromDefaultTargets
      = st.removedFromDefaultTargets ++ [(name, env.missingDependencies.getD [])] ∧
    endAborts cfg st2 = false := by
  refine ⟨?_, ?_, ?_⟩
  · unfold declareTarget
    rw [if_neg h]
  · unfold declareTarget
    rw [if_neg h]
  · simp [endAborts, hflag]

theorem declareTarget_always_excludes_degraded_witness :
    ({emptyEnv with missingDependencies := some ["libX"]} : Env).missingDependencies.getD [] ≠ [] ∧
    (⟨true, false, true, "release"⟩ : Config).ignoreConfigureErrors = true ∧
    ((declareTarget emptyProjectState {emptyEnv with missingDependencies := some ["libX"]} "t").allAlias
        = emptyProjectState.allAlias ∧
      (declareTarget emptyProjectState {emptyEnv with missingDependencies := some ["libX"]} "t").removedFromDefaultTargets
        = emptyProjectState.removedFromDefaultTargets ++
          [("t", ({emptyEnv with missingDependencies := some ["libX"]} : Env).missingDependencies.getD [])] ∧
      endAborts ⟨true, false, true, "release"⟩ emptyProjectState = false) :=
  ⟨by decide, rfl,
    declareTarget_always_excludes_degraded emptyProjectState
      {emptyEnv with missingDependencies := some ["libX"]} "t"
      ⟨true, false, true, "release"⟩ emptyProjectState (by decide) rfl⟩

/-- C4 counterexample: with the ignore-configure-errors flag set,
`declareTarget` (which consults no flag at all) still excludes a target
with missing dependency `"libX"` from the `'all'` alias and records it
as removed from the default targets — the claim predicted it would be
included in the default build. -/
theorem declareTarget_counterexample :
    (declareTarget emptyProjectState
        {emptyEnv with missingDependencies := some ["libX"]} "t").allAlias = [] ∧
    (declareTarget emptyProjectState
        {emptyEnv with missingDependencies := some ["libX"]} "t").removedFromDefaultTargets
      = [("t", ["libX"])] := by
  constructor <;> rfl

/-- C1 counterexample: two external libraries sharing the name `"z"` but
with distinct identities 1 and 2 are both requested in a run with
checking enabled; `checkLibrary` probes only once (the second request
hits the name-keyed `allLibsChecked` cache), while the number of
distinct `(name, identity)` pairs requested is 2. -/
theorem checkLibrary_probe_identity_counterexample :
    (runChecks ⟨true, false, false, "release"⟩ emptyProjectState
        [Lib.mk "z" 1 [] false true true true true,
         Lib.mk "z" 2 [] false true true true true]).probeCount = 1 ∧
    ((([Lib.mk "z" 1 [] false true true true true,
        Lib.mk "z" 2 [] false true true true true]).map libKey).toFinset).card = 2 := by
  constructor
  · rfl
  · rfl

theorem addLibError_checkDone (st : ProjectState) (lib : Lib) :
    (addLibError st lib).checkDone = st.checkDone := by
  unfold addLibError; split <;> rfl

theorem addLibError_allLibsChecked (st : ProjectState) (lib : Lib) :
    (addLibError st lib).allLibsChecked = st.allLibsChecked := by
  unfold addLibError; split <;> rfl

theorem addLibError_probeCount (st : ProjectState) (lib : Lib) :
    (addLibError st lib).probeCount = st.probeCount := by
  unfold addLibError; split <;> rfl

theorem card_insert_erase {α : Type} [DecidableEq α] (a : α) (s : Finset α) :
    (insert a s).card = (s.erase a).card + 1 := by
  by_cases h : a ∈ s
  · rw [Finset.card_insert_of_mem h, Finset.card_erase_add_one h]
  · rw [Finset.card_insert_of_not_mem h, Finset.erase_eq_of_not_mem h]

theorem checkLibrary_probe_projections (cfg : Config) (st : ProjectState) (lib : Lib)
    (h1 : lib ∉ st.checkDone) (h2 : ¬lib.sconsNode = true)
    (h3 : lib.name ∉ st.allLibsChecked) (hneed : needCheck cfg = true) :
    ((checkLibrary cfg st lib).2).probeCount = st.probeCount + 1 ∧
    ((checkLibrary cfg st lib).2).allLibsChecked = st.allLibsChecked ++ [lib.name] ∧
    ((checkLibrary cfg st lib).2).checkDone = st.checkDone ++ [lib] := by
  unfold checkLibrary
  rw [if_neg h1, if_neg h2, if_neg h3, if_neg (by simp [hneed])]
  split <;>
    simp [addLibError_checkDone, addLibError_allLibsChecked, addLibError_probeCount]

theorem runChecks_probeCount (cfg : Config) (hc : cfg.checkLibs = true) :
    ∀ (libs : List Lib) (st : ProjectState),
    (∀ l ∈ st.checkDone, l.sconsNode = true ∨ l.name ∈ st.allLibsChecked) →
    (runChecks cfg st libs).probeCount
      = st.probeCount +
        ((((libs.filter (fun l => !l.sconsNode)).map Lib.name).filter
            (fun n => n ∉ st.allLibsChecked)).toFinset).card := by
  intro libs
  induction libs with
  | nil => intro st hinv; simp [runChecks]
  | cons l ls ih =>
    intro st hinv
    show (runChecks cfg (checkLibrary cfg st l).2 ls).probeCount = _
    by_cases h2 : l.sconsNode = true
    · rw [checkLibrary_internal_trusted cfg st l h2, ih st hinv]
      simp [List.filter_cons, h2]
    · by_cases h1 : l ∈ st.checkDone
      · have hres : checkLibrary cfg st l = (true, st) := by
          unfold checkLibrary; rw [if_pos h1]
        have hname : l.name ∈ st.allLibsChecked := by
          rcases hinv l h1 with h | h
          · exact absurd h h2
          · exact h
        rw [hres, ih st hinv]
        simp [List.filter_cons, h2, hname]
      · by_cases h3 : l.name ∈ st.allLibsChecked
        · have hres : checkLibrary cfg st l
              = (true, {st with checkDone := st.checkDone ++ [l]}) := by
            unfold checkLibrary
            rw [if_neg h1, if_neg h2, if_pos h3]
          rw [hres, ih _ ?_]
          · simp [List.filter_cons, h2, h3]
          · intro x hx
            simp only [List.mem_append, List.mem_singleton] at hx
            rcases hx with hx | hx
            · exact hinv x hx
            · subst hx; right; exact h3
        · have hneed : needCheck cfg = true := hc
          obtain ⟨hp, ha, hd⟩ := checkLibrary_probe_projections cfg st l h1 h2 h3 hneed
          rw [ih ((checkLibrary cfg st l).2) ?_]
          · rw [hp, ha]
            have hsn : l.sconsNode = false := by
              cases hgoal : l.sconsNode
              · rfl
              · exact absurd hgoal h2
            rw [List.filter_cons_of_pos (by simp [hsn]), List.map_cons,
               List.filter_cons_of_pos (by simp [h3])]
            rw [List.toFinset_cons, card_insert_erase]
            have hsplit : (((ls.filter (fun l => !l.sconsNode)).map Lib.name).filter
                  (fun n => n ∉ st.allLibsChecked ++ [l.name]))
                = ((((ls.filter (fun l => !l.sconsNode)).map Lib.name).filter
                  (fun n => n ∉ st.allLibsChecked)).filter (fun n => ¬n = l.name)) := by
              rw [List.filter_filter]
              apply List.filter_congr
              intro x _
              simp [List.mem_append, not_or, Bool.and_comm]
            rw [hsplit]
            rw [List.toFinset_filter]
            rw [show ((((ls.filter (fun l => !l.sconsNode)).map Lib.name).filter
                  (fun n => n ∉ st.allLibsChecked)).toFinset.filter (fun n => (¬n = l.name : Bool) = true))
                = ((((ls.filter (fun l => !l.sconsNode)).map Lib.name).filter
                  (fun n => n ∉ st.allLibsChecked)).toFinset.filter (fun n => n ≠ l.name)) from by
              apply Finset.filter_congr; intro x _; simp]
            rw [Finset.filter_ne']
            omega
          · intro x hx
            rw [hd] at hx
            simp only [List.mem_append, List.mem_singleton] at hx
            rw [ha]
            rcases hx with hx | hx
            · rcases hinv x hx with h | h
              · left; exact h
              · right; simp [h]
            · subst hx; right; simp

/-- C1 (amended): the verification cache `allLibsChecked` is keyed by
library name only, so across a whole run with checking enabled the total
number of probe invocations equals the number of distinct *names* among
the non-internal libraries requested — at most one probe per name, not
per `(name, identity)` pair. -/
theorem checkLibrary_probe_once_per_name (cfg : Config) (libs : List Lib)
    (hc : cfg.checkLibs = true) :
    (runChecks cfg emptyProjectState libs).probeCount
      = (((libs.filter (fun l => !l.sconsNode)).map Lib.name).toFinset).card := by
  rw [runChecks_probeCount cfg hc libs emptyProjectState (by intro l hl; cases hl)]
  simp [emptyProjectState]

theorem checkLibrary_probe_once_per_name_witness :
    (⟨true, false, false, "release"⟩ : Config).checkLibs = true ∧
    (runChecks ⟨true, false, false, "release"⟩ emptyProjectState
        [Lib.mk "a" 1 [] false true true true true]).probeCount
      = ((([Lib.mk "a" 1 [] false true true true true].filter
            (fun l => !l.sconsNode)).map Lib.name).toFinset).card :=
  ⟨rfl, checkLibrary_probe_once_per_name ⟨true, false, false, "release"⟩
    [Lib.mk "a" 1 [] false true true true true] rfl⟩

/-- C7: when a script test's `'# scons:'` header names a dependency that
is absent from the target registry (and the header is not the `'all'`
keyword), the resolution fails with an error carrying exactly the missing
names and the sorted list of all known target names — except in
`'production'` mode, where the script is silently skipped instead. -/
theorem processScriptDeps_missing (mode : String)
    (reg : List (String × (Option String × Option Lib))) (deps : List String)
    (d : String) (hne : deps ≠ ["all"]) (hd : d ∈ deps)
    (hmiss : d ∉ reg.map Prod.fst) :
    processScriptDeps mode reg deps
      = if mode = "production" then .skipped
        else .failed (deps.filter (fun x => x ∉ reg.map Prod.fst))
               ((reg.map Prod.fst).insertionSort (· ≤ ·)) := by
  unfold processScriptDeps
  rw [if_neg hne]
  have herr : deps.filter (fun x => x ∉ reg.map Prod.fst) ≠ [] := by
    intro h
    have hmem : d ∈ deps.filter (fun x => x ∉ reg.map Prod.fst) := by
      rw [List.mem_filter]
      exact ⟨hd, by simpa using hmiss⟩
    rw [h] at hmem
    cases hmem
  rw [if_neg herr]

theorem processScriptDeps_missing_witness :
    processScriptDeps "release" [("t1", (some "t1", none))] ["nope"]
      = .failed ["nope"] ["t1"] := by
  have h := processScriptDeps_missing "release" [("t1", (some "t1", none))] ["nope"]
    "nope" (by decide) (by decide) (by decide)
  simpa using h

/-- C8: every target-declaring operation (`StaticLibrary`,
`SharedLibrary`, `Program`, `UnitTest`, `ScriptTests`) whose resolved
source-file list is empty fails immediately with a `RuntimeError`-style
error, before any build artifact or environment mutation for that target
is produced. -/
theorem declare_ops_empty_sources_fail (cfg : Config) (st : ProjectState)
    (target : String) (sources dirs scanned : List String) (libraries : List Lib)
    (headerDeps : String → Option (List String))
    (hsrc : sources ++ (if dirs = [] then [] else scanned) = []) :
    StaticLibraryOp cfg st target sources dirs scanned libraries
        = .error ("No source files for the target: " ++ target) ∧
    SharedLibraryOp cfg st target sources dirs scanned libraries
        = .error ("No source files for the target: " ++ target) ∧
    ProgramOp cfg st target sources dirs scanned libraries
        = .error ("No source files for the target: " ++ target) ∧
    UnitTestOp cfg st target sources dirs scanned libraries
        = .error ("No source files for the target: " ++ target) ∧
    ScriptTestsOp cfg st target sources dirs scanned headerDeps libraries
        = .error ("No source files for the target: " ++ target) := by
  refine ⟨?_, ?_, ?_, ?_, ?_⟩
  · simp [StaticLibraryOp, hsrc]
  · simp [SharedLibraryOp, hsrc]
  · simp [ProgramOp, hsrc]
  · simp [UnitTestOp, hsrc]
  · simp [ScriptTestsOp, hsrc]

theorem declare_ops_empty_sources_fail_witness :
    ([] : List String) ++ (if ([] : List String) = [] then [] else []) = [] ∧
    (StaticLibraryOp ⟨true, false, false, "release"⟩ emptyProjectState "tgt" [] [] [] []
        = .error ("No source files for the target: " ++ "tgt") ∧
      SharedLibraryOp ⟨true, false, false, "release"⟩ emptyProjectState "tgt" [] [] [] []
        = .error ("No source files for the target: " ++ "tgt") ∧
      ProgramOp ⟨true, false, false, "release"⟩ emptyProjectState "tgt" [] [] [] []
        = .error ("No source files for the target: " ++ "tgt") ∧
      UnitTestOp ⟨true, false, false, "release"⟩ emptyProjectState "tgt" [] [] [] []
        = .error ("No source files for the target: " ++ "tgt") ∧
      ScriptTestsOp ⟨true, false, false, "release"⟩ emptyProjectState "tgt" [] [] []
          (fun _ => none) []
        = .error ("No source files for the target: " ++ "tgt")) :=
  ⟨rfl, declare_ops_empty_sources_fail ⟨true, false, false, "release"⟩
    emptyProjectState "tgt" [] [] [] [] (fun _ => none) rfl⟩

/-- The spec's own description of `Dedup`, written from its words: "Walk
the sequence in order; keep the first occurrence of each distinct
`(name, identity)` pair; drop later duplicates including their depth."
Stated as a recursive reference definition to compare with `uniqLibs`. -/
def firstOccurrenceDedup : List (Lib × Nat) → List (Lib × Nat)
  | [] => []
  | p :: rest =>
    p :: firstOccurrenceDedup (rest.filter (fun q => pairKey q ≠ pairKey p))
termination_by x => x.length
decreasing_by
  exact Nat.lt_succ_of_le (List.length_filter_le _ _)

theorem uniqLibsAux_cons (names : List (String × Nat)) (s : Lib) (level : Nat)
    (rest : List (Lib × Nat)) :
    uniqLibsAux names ((s, level) :: rest)
      = if (s.name, s.id) ∈ names then uniqLibsAux names rest
        else (s, level) :: uniqLibsAux (names ++ [(s.name, s.id)]) rest := rfl

theorem firstOccurrenceDedup_cons (p : Lib × Nat) (rest : List (Lib × Nat)) :
    firstOccurrenceDedup (p :: rest)
      = p :: firstOccurrenceDedup (rest.filter (fun q => pairKey q ≠ pairKey p)) := by
  rw [firstOccurrenceDedup]

theorem uniqLibsAux_eq_firstOccurrenceDedup :
    ∀ (x : List (Lib × Nat)) (names : List (String × Nat)),
    uniqLibsAux names x
      = firstOccurrenceDedup (x.filter (fun p => pairKey p ∉ names)) := by
  intro x
  induction x with
  | nil => intro names; simp [uniqLibsAux, firstOccurrenceDedup]
  | cons hd rest ih =>
    intro names
    obtain ⟨s, level⟩ := hd
    rw [uniqLibsAux_cons]
    by_cases hm : (s.name, s.id) ∈ names
    · rw [if_pos hm, ih names, List.filter_cons_of_neg (by simpa [pairKey, libKey] using hm)]
    · rw [if_neg hm, ih (names ++ [(s.name, s.id)])]
      rw [List.filter_cons_of_pos (by simpa [pairKey, libKey] using hm)]
      rw [firstOccurrenceDedup_cons]
      congr 1
      rw [List.filter_filter]
      congr 1
      apply List.filter_congr
      intro q _
      simp [pairKey, libKey, List.mem_append, not_or, Bool.and_comm]

theorem firstOccurrenceDedup_nil : firstOccurrenceDedup [] = [] := by
  rw [firstOccurrenceDedup]

theorem firstOccurrenceDedup_subset_aux :
    ∀ (n : Nat) (x : List (Lib × Nat)), x.length ≤ n →
      ∀ q ∈ firstOccurrenceDedup x, q ∈ x := by
  intro n
  induction n with
  | zero =>
    intro x hx q hq
    rw [List.length_eq_zero.mp (Nat.le_zero.mp hx)] at hq ⊢
    rw [firstOccurrenceDedup_nil] at hq
    cases hq
  | succ n ih =>
    intro x hx q hq
    cases x with
    | nil => rw [firstOccurrenceDedup_nil] at hq; cases hq
    | cons p rest =>
      rw [firstOccurrenceDedup_cons] at hq
      rcases List.mem_cons.mp hq with h | h
      · subst h; exact List.mem_cons_self ..
      · have hrest : rest.length ≤ n := by
          simp only [List.length_cons] at hx
          omega
        have hlen : (rest.filter (fun r => pairKey r ≠ pairKey p)).length ≤ n :=
          le_trans (List.length_filter_le _ _) hrest
        exact List.mem_cons_of_mem _ (List.mem_of_mem_filter (ih _ hlen q h))

theorem firstOccurrenceDedup_subset (x : List (Lib × Nat)) (q : Lib × Nat)
    (hq : q ∈ firstOccurrenceDedup x) : q ∈ x :=
  firstOccurrenceDedup_subset_aux x.length x (le_refl _) q hq

theorem firstOccurrenceDedup_keys_nodup_aux :
    ∀ (n : Nat) (x : List (Lib × Nat)), x.length ≤ n →
      ((firstOccurrenceDedup x).map pairKey).Nodup := by
  intro n
  induction n with
  | zero =>
    intro x hx
    rw [List.length_eq_zero.mp (Nat.le_zero.mp hx), firstOccurrenceDedup_nil]
    simp
  | succ n ih =>
    intro x hx
    cases x with
    | nil => rw [firstOccurrenceDedup_nil]; simp
    | cons p rest =>
      rw [firstOccurrenceDedup_cons, List.map_cons]
      apply List.Nodup.cons
      · intro hmem
        rcases List.mem_map.mp hmem with ⟨q, hq, hkey⟩
        have hqf := firstOccurrenceDedup_subset _ q hq
        have hne := List.of_mem_filter hqf
        simp only [decide_eq_true_eq] at hne
        exact hne hkey
      · have hrest : rest.length ≤ n := by
          simp only [List.length_cons] at hx
          omega
        exact ih _ (le_trans (List.length_filter_le _ _) hrest)

theorem firstOccurrenceDedup_keys_nodup (x : List (Lib × Nat)) :
    ((firstOccurrenceDedup x).map pairKey).Nodup :=
  firstOccurrenceDedup_keys_nodup_aux x.length x (le_refl _)

theorem uniqLibsAux_of_nodup :
    ∀ (y : List (Lib × Nat)) (names : List (String × Nat)),
    (∀ q ∈ y, pairKey q ∉ names) → ((y.map pairKey).Nodup) →
    uniqLibsAux names y = y := by
  intro y
  induction y with
  | nil => intro names _ _; rfl
  | cons p rest ih =>
    intro names hnot hnd
    obtain ⟨s, level⟩ := p
    rw [uniqLibsAux_cons]
    have hnn : (s.name, s.id) ∉ names := hnot (s, level) (List.mem_cons_self ..)
    rw [if_neg hnn]
    congr 1
    rw [List.map_cons] at hnd
    rcases List.nodup_cons.mp hnd with ⟨hhd, htl⟩
    apply ih
    · intro q hq
      simp only [List.mem_append, List.mem_singleton, not_or]
      refine ⟨hnot q (List.mem_cons_of_mem _ hq), ?_⟩
      intro hkey
      apply hhd
      rw [show pairKey (s, level) = (s.name, s.id) from rfl, ← hkey]
      exact List.mem_map_of_mem pairKey hq
    · exact htl

/-- C5: `uniqLibs` is idempotent, and its output is exactly the first
occurrence of each distinct `(name, id)` pair of the input, in the same
relative order those first occurrences have in the input, with later
duplicates and their depths dropped (the behaviour stated by the spec and
captured by the reference definition `firstOccurrenceDedup`). -/
theorem uniqLibs_idempotent_first_occurrences (x : List (Lib × Nat)) :
    uniqLibs (uniqLibs x) = uniqLibs x ∧ uniqLibs x = firstOccurrenceDedup x := by
  have hchar : ∀ y : List (Lib × Nat), uniqLibs y = firstOccurrenceDedup y := by
    intro y
    unfold uniqLibs
    rw [uniqLibsAux_eq_firstOccurrenceDedup]
    congr 1
    apply List.filter_eq_self.mpr
    intro q _
    simp
  refine ⟨?_, hchar x⟩
  rw [hchar x]
  unfold uniqLibs
  apply uniqLibsAux_of_nodup
  · intro q _
    simp
  · exact firstOccurrenceDedup_keys_nodup x

theorem checkLibrary_result_collapse (cfg : Config) (st : ProjectState) (lib : Lib) :
    ((checkLibrary cfg st lib).1 && (lib.configureB && lib.checkB))
      = (lib.configureB && lib.checkB) := by
  unfold checkLibrary
  repeat' split
  all_goals simp [Bool.and_assoc, Bool.and_comm, Bool.and_left_comm]

theorem configureLoop_env (cfg : Config) :
    ∀ (l : List (Lib × Nat)) (st : ProjectState) (env : Env) (errs : List Lib),
    (configureLoop cfg st env l errs).2.1
      = {env with
          configuredLibs := env.configuredLibs
            ++ (l.filter (fun p => p.1.enabledB)).map Prod.fst,
          checkedLibs := env.checkedLibs
            ++ (l.filter (fun p => p.1.enabledB && p.1.configureB)).map Prod.fst} := by
  intro l
  induction l with
  | nil => intro st env errs; simp [configureLoop]
  | cons hd tl ih =>
    intro st env errs
    obtain ⟨lib, level⟩ := hd
    show (configureLoop cfg st env ((lib, level) :: tl) errs).2.1 = _
    unfold configureLoop
    by_cases he : lib.enabledB = true
    · rw [if_neg (by simp [he])]
      by_cases hcf : lib.configureB = true
      · rw [if_pos hcf]
        by_cases hck : ((checkLibrary cfg st lib).1 && lib.checkB) = true
        · rw [if_pos hck, ih]
          simp [List.filter_cons, he, hcf]
        · rw [if_neg hck, ih]
          simp [List.filter_cons, he, hcf]
      · rw [if_neg hcf, ih]
        simp [List.filter_cons, he, hcf]
    · rw [if_pos (by simp [he])]
      rw [ih]
      simp [List.filter_cons, he]

theorem configureLoop_errs (cfg : Config) :
    ∀ (l : List (Lib × Nat)) (st : ProjectState) (env : Env) (errs : List Lib),
    (configureLoop cfg st env l errs).2.2
      = errs ++ (l.filter
          (fun p => p.1.enabledB && !(p.1.configureB && p.1.checkB))).map Prod.fst := by
  intro l
  induction l with
  | nil => intro st env errs; simp [configureLoop]
  | cons hd tl ih =>
    intro st env errs
    obtain ⟨lib, level⟩ := hd
    show (configureLoop cfg st env ((lib, level) :: tl) errs).2.2 = _
    unfold configureLoop
    by_cases he : lib.enabledB = true
    · rw [if_neg (by simp [he])]
      by_cases hcf : lib.configureB = true
      · rw [if_pos hcf]
        have hcollapse := checkLibrary_result_collapse cfg st lib
        rw [hcf, Bool.true_and] at hcollapse
        by_cases hck : lib.checkB = true
        · rw [if_pos (by rw [hck] at hcollapse ⊢; simpa using hcollapse), ih]
          simp [List.filter_cons, he, hcf, hck]
        · have hckf : lib.checkB = false := by
            cases h : lib.checkB
            · rfl
            · exact absurd h hck
          rw [if_neg (by rw [hckf] at hcollapse ⊢; simp), ih]
          simp [List.filter_cons, he, hcf, hckf]
      · rw [if_neg hcf, ih]
        have hcff : lib.configureB = false := by
          cases h : lib.configureB
          · rfl
          · exact absurd h hcf
        simp [List.filter_cons, he, hcff]
    · rw [if_pos (by simp [he])]
      rw [ih]
      simp [List.filter_cons, he]

/-- C3: with verification enabled (`needConfigure`), `appendLibsToEnv`
applies configuration to every library of the resolved list and checking
to every library whose configure step passed — it never aborts at a
failure — and the environment's `SconsProject_missingDependencies` list
receives exactly the names of the libraries whose configure or check
step failed: a failing library contributes only its own name, never a
sibling's.  (The code additionally skips libraries disabled by a
command-line option, a feature outside the claim, hence the
all-enabled hypothesis.) -/
theorem appendLibsToEnv_partial_failure (cfg : Config) (st : ProjectState) (env : Env)
    (libs : List Lib)
    (hconf : needConfigure cfg = true) (hne : libs ≠ [])
    (henabled : ∀ p ∈ resolveAllLibs libs, p.1.enabledB = true) :
    (appendLibsToEnv cfg st env libs).2.configuredLibs
        = env.configuredLibs ++ (resolveAllLibs libs).map Prod.fst ∧
    (appendLibsToEnv cfg st env libs).2.checkedLibs
        = env.checkedLibs
          ++ ((resolveAllLibs libs).filter (fun p => p.1.configureB)).map Prod.fst ∧
    (appendLibsToEnv cfg st env libs).2.missingDependencies
        = some (env.missingDependencies.getD []
          ++ (((resolveAllLibs libs).filter
                (fun p => !(p.1.configureB && p.1.checkB))).map Prod.fst).map Lib.name) := by
  unfold appendLibsToEnv
  rw [if_neg hne]
  simp only [hconf, if_true, configureLoop_env, configureLoop_errs]
  have hfilter1 : (resolveAllLibs libs).filter (fun p => p.1.enabledB)
      = resolveAllLibs libs :=
    List.filter_eq_self.mpr (fun p hp => by simp [henabled p hp])
  have hfilter2 : (resolveAllLibs libs).filter (fun p => p.1.enabledB && p.1.configureB)
      = (resolveAllLibs libs).filter (fun p => p.1.configureB) :=
    List.filter_congr (fun p hp => by simp [henabled p hp])
  have hfilter3 : (resolveAllLibs libs).filter
        (fun p => p.1.enabledB && !(p.1.configureB && p.1.checkB))
      = (resolveAllLibs libs).filter (fun p => !(p.1.configureB && p.1.checkB)) :=
    List.filter_congr (fun p hp => by simp [henabled p hp])
  rw [hfilter1, hfilter2, hfilter3]
  exact ⟨rfl, rfl, rfl⟩

theorem appendLibsToEnv_partial_failure_witness :
    (appendLibsToEnv ⟨true, false, false, "release"⟩ emptyProjectState emptyEnv
        [Lib.mk "bad" 9 [] false true true false true,
         Lib.mk "good" 10 [] false true true true true]).2.configuredLibs
      = [Lib.mk "bad" 9 [] false true true false true,
         Lib.mk "good" 10 [] false true true true true] ∧
    (appendLibsToEnv ⟨true, false, false, "release"⟩ emptyProjectState emptyEnv
        [Lib.mk "bad" 9 [] false true true false true,
         Lib.mk "good" 10 [] false true true true true]).2.checkedLibs
      = [Lib.mk "good" 10 [] false true true true true] ∧
    (appendLibsToEnv ⟨true, false, false, "release"⟩ emptyProjectState emptyEnv
        [Lib.mk "bad" 9 [] false true true false true,
         Lib.mk "good" 10 [] false true true true true]).2.missingDependencies
      = some ["bad"] := by
  have h := appendLibsToEnv_partial_failure ⟨true, false, false, "release"⟩
    emptyProjectState emptyEnv
    [Lib.mk "bad" 9 [] false true true false true,
     Lib.mk "good" 10 [] false true true true true]
    rfl (List.cons_ne_nil _ _) (by decide)
  exact ⟨h.1.trans rfl, h.2.1.trans rfl, h.2.2.trans rfl⟩

/-- "Dependencies come earlier": at every split of `xs`, each direct
dependency of the element at the split point has its `(name, id)` key
among the keys of the context `ctx` followed by the part of `xs` before
the split point. -/
def GoodFrom (ctx xs : List (Lib × Nat)) : Prop :=
  ∀ a p b, xs = a ++ p :: b → ∀ d ∈ p.1.dependencies, libKey d ∈ (ctx ++ a).map pairKey

theorem goodFrom_nil (ctx : List (Lib × Nat)) : GoodFrom ctx [] := by
  intro a p b h
  cases a <;> simp at h

theorem goodFrom_singleton (ctx : List (Lib × Nat)) (p : Lib × Nat)
    (h : ∀ d ∈ p.1.dependencies, libKey d ∈ ctx.map pairKey) : GoodFrom ctx [p] := by
  intro a q b heq d hd
  cases a with
  | nil =>
    simp only [List.nil_append, List.cons.injEq] at heq
    obtain ⟨rfl, rfl⟩ := heq
    simpa using h d hd
  | cons x xs =>
    simp only [List.cons_append, List.cons.injEq] at heq
    obtain ⟨rfl, h2⟩ := heq
    cases xs <;> simp at h2

theorem goodFrom_cons (ctx : List (Lib × Nat)) (x : Lib × Nat) (xs : List (Lib × Nat))
    (h : GoodFrom ctx (x :: xs)) : GoodFrom (ctx ++ [x]) xs := by
  intro a p b heq d hd
  have hx := h (x :: a) p b (by rw [heq]; rfl) d hd
  simpa [List.append_assoc] using hx

theorem goodFrom_append (ctx xs ys : List (Lib × Nat))
    (h1 : GoodFrom ctx xs) (h2 : GoodFrom (ctx ++ xs) ys) : GoodFrom ctx (xs ++ ys) := by
  induction xs generalizing ctx with
  | nil => simpa using h2
  | cons x xs ih =>
    intro a p b heq d hd
    cases a with
    | nil =>
      simp only [List.nil_append, List.cons_append, List.cons.injEq] at heq
      obtain ⟨rfl, -⟩ := heq
      simpa using h1 [] x xs rfl d hd
    | cons y a2 =>
      simp only [List.cons_append, List.cons.injEq] at heq
      obtain ⟨rfl, heq2⟩ := heq
      have hrec := ih (ctx ++ [x]) (goodFrom_cons ctx x xs h1)
        (by simpa [List.append_assoc] using h2) a2 p b heq2 d hd
      simpa [List.append_assoc] using hrec

theorem internFindList_goodFrom (ls : List Lib) (level : Nat)
    (hmem : ∀ l ∈ ls, ∀ (lvl : Nat) (ctx2 : List (Lib × Nat)),
      GoodFrom ctx2 (internFindLibDependencies l lvl)) :
    ∀ ctx, GoodFrom ctx (internFindLibDependenciesList ls level) := by
  induction ls with
  | nil => intro ctx; exact goodFrom_nil ctx
  | cons l rest ih =>
    intro ctx
    show GoodFrom ctx (internFindLibDependencies l level
      ++ internFindLibDependenciesList rest level)
    apply goodFrom_append
    · exact hmem l (List.mem_cons_self ..) level ctx
    · exact ih (fun x hx => hmem x (List.mem_cons_of_mem _ hx)) _

theorem internFind_self_mem (lib : Lib) (level : Nat) :
    (lib, level) ∈ internFindLibDependencies lib level := by
  cases lib with
  | mk n i d s e o c k =>
    show _ ∈ internFindLibDependenciesList d (level + 1) ++ [(Lib.mk n i d s e o c k, level)]
    exact List.mem_append_right _ (List.mem_singleton.mpr rfl)

theorem internFindList_mem (ls : List Lib) (level : Nat) (d : Lib) (hd : d ∈ ls) :
    (d, level) ∈ internFindLibDependenciesList ls level := by
  induction ls with
  | nil => cases hd
  | cons l rest ih =>
    rcases List.mem_cons.mp hd with h | h
    · subst h
      exact List.mem_append_left _ (internFind_self_mem ..)
    · exact List.mem_append_right _ (ih h)

theorem internFind_goodFrom_aux :
    ∀ (n : Nat) (lib : Lib), sizeOf lib ≤ n → ∀ (level : Nat) (ctx : List (Lib × Nat)),
    GoodFrom ctx (internFindLibDependencies lib level) := by
  intro n
  induction n with
  | zero =>
    intro lib h
    exact absurd h (by cases lib; simp)
  | succ n ih =>
    intro lib hsz level ctx
    cases lib with
    | mk nm i d s e o c k =>
      show GoodFrom ctx (internFindLibDependenciesList d (level + 1)
        ++ [(Lib.mk nm i d s e o c k, level)])
      apply goodFrom_append
      · apply internFindList_goodFrom
        intro l hl lvl ctx2
        apply ih l ?_ lvl ctx2
        have h1 : sizeOf l < sizeOf d := List.sizeOf_lt_of_mem hl
        have h2 : sizeOf (Lib.mk nm i d s e o c k) = 1 + sizeOf nm + sizeOf i + sizeOf d
            + sizeOf s + sizeOf e + sizeOf o + sizeOf c + sizeOf k := by simp
        omega
      · apply goodFrom_singleton
        intro dep hdep
        have hdep2 : dep ∈ d := by simpa [Lib.dependencies] using hdep
        have hm : (dep, level + 1) ∈ internFindLibDependenciesList d (level + 1) :=
          internFindList_mem d (level + 1) dep hdep2
        exact List.mem_map.mpr ⟨(dep, level + 1), List.mem_append_right _ hm, rfl⟩

theorem internFind_goodFrom (lib : Lib) (level : Nat) (ctx : List (Lib × Nat)) :
    GoodFrom ctx (internFindLibDependencies lib level) :=
  internFind_goodFrom_aux (sizeOf lib) lib (le_refl _) level ctx

theorem pre_goodFrom (libs : List Lib) :
    ∀ (acc ctx : List (Lib × Nat)), GoodFrom ctx acc →
    GoodFrom ctx (libs.foldl (fun acc l => acc ++ findLibsDependencies l ++ [(l, 0)]) acc) := by
  induction libs with
  | nil => intro acc ctx h; simpa using h
  | cons l rest ih =>
    intro acc ctx h
    rw [List.foldl_cons]
    apply ih
    apply goodFrom_append
    · apply goodFrom_append
      · exact h
      · show GoodFrom _ (internFindLibDependenciesList l.dependencies 0)
        apply internFindList_goodFrom
        intro x _ lvl c2
        exact internFind_goodFrom x lvl c2
    · apply goodFrom_singleton
      intro dep hdep
      have hm : (dep, 0) ∈ internFindLibDependenciesList l.dependencies 0 :=
        internFindList_mem l.dependencies 0 dep hdep
      exact List.mem_map.mpr ⟨(dep, 0),
        List.mem_append_right _ (List.mem_append_right _ hm), rfl⟩

theorem uniqLibsAux_split :
    ∀ (x : List (Lib × Nat)) (names : List (String × Nat)) (a : List (Lib × Nat))
      (p : Lib × Nat) (b : List (Lib × Nat)),
    uniqLibsAux names x = a ++ p :: b →
    ∃ x1 x2, x = x1 ++ p :: x2 ∧
      ∀ q ∈ x1, pairKey q ∈ names ∨ pairKey q ∈ a.map pairKey := by
  intro x
  induction x with
  | nil =>
    intro names a p b h
    exact absurd h (by cases a <;> simp [uniqLibsAux])
  | cons hd rest ih =>
    intro names a p b h
    obtain ⟨s, level⟩ := hd
    rw [uniqLibsAux_cons] at h
    by_cases hm : (s.name, s.id) ∈ names
    · rw [if_pos hm] at h
      obtain ⟨x1, x2, hx, hmem⟩ := ih names a p b h
      refine ⟨(s, level) :: x1, x2, by rw [hx]; rfl, ?_⟩
      intro q hq
      rcases List.mem_cons.mp hq with rfl | hq2
      · left; exact hm
      · exact hmem q hq2
    · rw [if_neg hm] at h
      cases a with
      | nil =>
        simp only [List.nil_append] at h
        injection h with h1 h2
        exact ⟨[], rest, by rw [← h1]; rfl, by intro q hq; cases hq⟩
      | cons a0 a2 =>
        rw [List.cons_append] at h
        injection h with h1 h2
        obtain ⟨x1, x2, hx, hmem⟩ := ih (names ++ [(s.name, s.id)]) a2 p b h2
        refine ⟨(s, level) :: x1, x2, by rw [hx]; rfl, ?_⟩
        intro q hq
        rcases List.mem_cons.mp hq with rfl | hq2
        · right
          rw [← h1, List.map_cons]
          exact List.mem_cons_self ..
        · rcases hmem q hq2 with hn | ha
          · rcases List.mem_append.mp hn with h3 | h3
            · left; exact h3
            · right
              rw [List.mem_singleton] at h3
              rw [← h1, List.map_cons, h3]
              exact List.mem_cons_self ..
          · right
            rw [List.map_cons]
            exact List.mem_cons_of_mem _ ha

theorem uniqLibs_goodFrom (x : List (Lib × Nat)) (h : GoodFrom [] x) :
    GoodFrom [] (uniqLibs x) := by
  intro a p b hsplit d hd
  obtain ⟨x1, x2, hx, hmem⟩ := uniqLibsAux_split x [] a p b hsplit
  have hkey := h x1 p x2 hx d hd
  simp only [List.nil_append] at hkey ⊢
  rcases List.mem_map.mp hkey with ⟨q, hq, hqk⟩
  rcases hmem q hq with hn | ha
  · exact absurd hn (List.not_mem_nil _)
  · rw [← hqk]
    exact ha

/-- C2: the resolved dependency list of `appendLibsToEnv` — the transitive
dependencies of each requested library (post-order) followed by the
library itself, all deduplicated by `uniqLibs` — is leaf-first ordered:
at every position of the list, every direct dependency of the library at
that position already occurs (as a `(name, id)` key) at an earlier
position. -/
theorem resolveAllLibs_leaf_first (libs : List Lib) (a : List (Lib × Nat))
    (p : Lib × Nat) (b : List (Lib × Nat)) (d : Lib)
    (hsplit : resolveAllLibs libs = a ++ p :: b) (hd : d ∈ p.1.dependencies) :
    libKey d ∈ a.map pairKey := by
  have hpre := pre_goodFrom libs [] [] (goodFrom_nil [])
  have hgood := uniqLibs_goodFrom _ hpre
  have hres := hgood a p b hsplit d hd
  simpa using hres

theorem resolveAllLibs_leaf_first_witness :
    resolveAllLibs [Lib.mk "B" 2 [Lib.mk "A" 1 [] false true true true true]
        false true true true true]
      = [(Lib.mk "A" 1 [] false true true true true, 0)]
        ++ (Lib.mk "B" 2 [Lib.mk "A" 1 [] false true true true true]
            false true true true true, 0) :: [] ∧
    Lib.mk "A" 1 [] false true true true true
      ∈ (Lib.mk "B" 2 [Lib.mk "A" 1 [] false true true true true]
          false true true true true, 0).1.dependencies ∧
    libKey (Lib.mk "A" 1 [] false true true true true)
      ∈ [(Lib.mk "A" 1 [] false true true true true, 0)].map pairKey :=
  ⟨rfl, List.mem_cons_self .., resolveAllLibs_leaf_first
    [Lib.mk "B" 2 [Lib.mk "A" 1 [] false true true true true] false true true true true]
    [(Lib.mk "A" 1 [] false true true true true, 0)]
    (Lib.mk "B" 2 [Lib.mk "A" 1 [] false true true true true] false true true true true, 0)
    [] (Lib.mk "A" 1 [] false true true true true) rfl (List.mem_cons_self ..)⟩
